import Mathlib

/-!
Shallow embedding of the orbital-mechanics core of an interactive Keplerian
orbital-elements visualization.  The embedded code comes from
src/utils/orbitalMath.ts (frame transform, position, orbit path, reference
vectors), src/types.ts (the elements record and parameter keys),
src/App.tsx (default elements and the field-update handler) and the
Controls component (the two singularity flags).  JavaScript floating-point
numbers are modelled by real numbers; THREE.Vector3 is modelled by an
explicit three-component real vector with the length, dot and normalize
operations matching the THREE.js library semantics (normalize divides by
the length when it is nonzero and leaves the zero vector unchanged).
-/

noncomputable section

/-- Model of THREE.Vector3: a three-component real vector. -/
@[ext]
structure Vec3 where
  x : ℝ
  y : ℝ
  z : ℝ

/-- THREE.Vector3.length: the Euclidean norm. -/
def Vec3.length (v : Vec3) : ℝ := Real.sqrt (v.x ^ 2 + v.y ^ 2 + v.z ^ 2)

/-- THREE.Vector3.dot: the Euclidean inner product. -/
def Vec3.dot (u v : Vec3) : ℝ := u.x * v.x + u.y * v.y + u.z * v.z

/-- Scalar multiple of a vector (THREE.Vector3.multiplyScalar). -/
def Vec3.smul (c : ℝ) (v : Vec3) : Vec3 := ⟨c * v.x, c * v.y, c * v.z⟩

/-- Componentwise negation of a vector (THREE.Vector3.negate). -/
def Vec3.neg (v : Vec3) : Vec3 := ⟨-v.x, -v.y, -v.z⟩

/-- The zero vector. -/
def Vec3.zero : Vec3 := ⟨0, 0, 0⟩

/-- THREE.Vector3.normalize: divide each component by the length when the
length is nonzero (THREE divides by the expression length-or-1, which leaves
the zero vector unchanged). -/
def Vec3.normalize (v : Vec3) : Vec3 :=
  ⟨v.x / (if v.length = 0 then 1 else v.length),
   v.y / (if v.length = 0 then 1 else v.length),
   v.z / (if v.length = 0 then 1 else v.length)⟩

/-- src/types.ts: the OrbitalElements record, the sole domain entity. -/
structure OrbitalElements where
  a : ℝ
  e : ℝ
  i : ℝ
  omega : ℝ
  raan : ℝ
  nu : ℝ

/-- src/types.ts: enum ParameterKey. -/
inductive ParameterKey where
  | A
  | E
  | I
  | OMEGA
  | RAAN
  | NU

/-- src/utils/orbitalMath.ts: degToRad. -/
def degToRad (deg : ℝ) : ℝ := deg * (Real.pi / 180)

/-- src/utils/orbitalMath.ts: radToDeg. -/
def radToDeg (rad : ℝ) : ℝ := rad * (180 / Real.pi)

/-- src/utils/orbitalMath.ts: perifocalToThree.  Transforms a point from the
perifocal frame to the THREE.js world frame: the combined 3-1-3 Euler
rotation matrix is applied to the input, producing physics coordinates
(X, Y, Z), which are returned as the THREE vector (X, Z, -Y). -/
def perifocalToThree (x_orb y_orb z_orb : ℝ) (elements : OrbitalElements) : Vec3 :=
  let cos_O := Real.cos elements.raan
  let sin_O := Real.sin elements.raan
  let cos_w := Real.cos elements.omega
  let sin_w := Real.sin elements.omega
  let cos_i := Real.cos elements.i
  let sin_i := Real.sin elements.i
  let xx := cos_O * cos_w - sin_O * sin_w * cos_i
  let xy := -cos_O * sin_w - sin_O * cos_w * cos_i
  let xz := sin_O * sin_i
  let yx := sin_O * cos_w + cos_O * sin_w * cos_i
  let yy := -sin_O * sin_w + cos_O * cos_w * cos_i
  let yz := -cos_O * sin_i
  let zx := sin_w * sin_i
  let zy := cos_w * sin_i
  let zz := cos_i
  let X := xx * x_orb + xy * y_orb + xz * z_orb
  let Y := yx * x_orb + yy * y_orb + yz * z_orb
  let Z := zx * x_orb + zy * y_orb + zz * z_orb
  ⟨X, Z, -Y⟩

/-- src/utils/orbitalMath.ts: calculatePosition.  The optional anomaly
argument is modelled by an Option; when absent, elements.nu is used. -/
def calculatePosition (elements : OrbitalElements) (anomaly : Option ℝ) : Vec3 :=
  let nu := anomaly.getD elements.nu
  let r := (elements.a * (1 - elements.e * elements.e)) / (1 + elements.e * Real.cos nu)
  let x_orb := r * Real.cos nu
  let y_orb := r * Real.sin nu
  let z_orb := 0
  perifocalToThree x_orb y_orb z_orb elements

/-- src/utils/orbitalMath.ts: generateOrbitPath.  One point for each j from
0 to segments inclusive, at true anomaly (j / segments) * 2 * pi. -/
def generateOrbitPath (elements : OrbitalElements) (segments : ℕ) : List Vec3 :=
  (List.range (segments + 1)).map fun (j : ℕ) =>
    calculatePosition elements (some (((j : ℝ) / (segments : ℝ)) * 2 * Real.pi))

/-- src/utils/orbitalMath.ts: getNodeVector.  The ascending node direction,
built directly from the RAAN in THREE coordinates and normalized. -/
def getNodeVector (elements : OrbitalElements) : Vec3 :=
  Vec3.normalize ⟨Real.cos elements.raan, 0, -Real.sin elements.raan⟩

/-- src/utils/orbitalMath.ts: getPerigeeVector.  The position at true
anomaly 0, normalized. -/
def getPerigeeVector (elements : OrbitalElements) : Vec3 :=
  Vec3.normalize (calculatePosition elements (some 0))

/-- src/utils/orbitalMath.ts: getOrbitNormal.  The transform of the
perifocal unit-z vector, normalized. -/
def getOrbitNormal (elements : OrbitalElements) : Vec3 :=
  Vec3.normalize (perifocalToThree 0 0 1 elements)

/-- Controls component: isCircular, the circular-orbit singularity flag,
a pure predicate on the current elements. -/
def isCircular (elements : OrbitalElements) : Prop := elements.e < 0.01

/-- Controls component: isEquatorial, the equatorial-orbit singularity flag,
a pure predicate on the current elements (threshold 0.01 degrees). -/
def isEquatorial (elements : OrbitalElements) : Prop :=
  elements.i < 0.01 * (Real.pi / 180)

/-- src/App.tsx: INITIAL_ELEMENTS, the default elements record. -/
def INITIAL_ELEMENTS : OrbitalElements :=
  { a := 8
    e := 0.4
    i := 45 * (Real.pi / 180)
    omega := 45 * (Real.pi / 180)
    raan := 30 * (Real.pi / 180)
    nu := 0 }

/-- src/App.tsx: handleUpdateElement.  The field-update handler spreads the
previous record and overwrites the single addressed field with the given
value, verbatim. -/
def handleUpdateElement (prev : OrbitalElements) (key : ParameterKey) (value : ℝ) :
    OrbitalElements :=
  match key with
  | ParameterKey.A => { prev with a := value }
  | ParameterKey.E => { prev with e := value }
  | ParameterKey.I => { prev with i := value }
  | ParameterKey.OMEGA => { prev with omega := value }
  | ParameterKey.RAAN => { prev with raan := value }
  | ParameterKey.NU => { prev with nu := value }

/-- Spec-side definition (from the claim text, for the refinement claim C1):
the classical 3-1-3 Euler rotation as the composed 3 by 3 matrix with rows
(cos O cos w - sin O sin w cos i, -cos O sin w - sin O cos w cos i, sin O sin i),
(sin O cos w + cos O sin w cos i, -sin O sin w + cos O cos w cos i, -cos O sin i),
(sin w sin i, cos w sin i, cos i), applied to the input vector. -/
def euler313Apply (elements : OrbitalElements) (v : Vec3) : Vec3 :=
  ⟨(Real.cos elements.raan * Real.cos elements.omega
      - Real.sin elements.raan * Real.sin elements.omega * Real.cos elements.i) * v.x
    + (-Real.cos elements.raan * Real.sin elements.omega
      - Real.sin elements.raan * Real.cos elements.omega * Real.cos elements.i) * v.y
    + (Real.sin elements.raan * Real.sin elements.i) * v.z,
   (Real.sin elements.raan * Real.cos elements.omega
      + Real.cos elements.raan * Real.sin elements.omega * Real.cos elements.i) * v.x
    + (-Real.sin elements.raan * Real.sin elements.omega
      + Real.cos elements.raan * Real.cos elements.omega * Real.cos elements.i) * v.y
    + (-Real.cos elements.raan * Real.sin elements.i) * v.z,
   (Real.sin elements.omega * Real.sin elements.i) * v.x
    + (Real.cos elements.omega * Real.sin elements.i) * v.y
    + Real.cos elements.i * v.z⟩

/-- Spec-side definition (from the claim text): the fixed axis relabeling
from the physics frame to the render frame, sending physics (X, Y, Z) to
render (X, Z, -Y). -/
def physToRender (v : Vec3) : Vec3 := ⟨v.x, v.z, -v.y⟩

/-- Spec-side definition (from the claim text, for the refinement claim C2):
with nu the supplied anomaly or else elements.nu, the radial distance
r = a (1 - e^2) / (1 + e cos nu), the perifocal point
(r cos nu, r sin nu, 0), passed to the frame transform. -/
def positionSpec (elements : OrbitalElements) (anomaly : Option ℝ) : Vec3 :=
  let nu := anomaly.getD elements.nu
  let r := elements.a * (1 - elements.e ^ 2) / (1 + elements.e * Real.cos nu)
  perifocalToThree (r * Real.cos nu) (r * Real.sin nu) 0 elements

/-- Spec scenario element set for the circular and equatorial case:
a = 10, e = 0, i = 0, omega = 0, raan = 0, nu = pi / 2. -/
def circularScenario : OrbitalElements :=
  { a := 10, e := 0, i := 0, omega := 0, raan := 0, nu := Real.pi / 2 }

/-- Helper rotation about the z axis by the angle with cosine c and sine s. -/
def rotZ (c s : ℝ) (v : Vec3) : Vec3 :=
  ⟨c * v.x - s * v.y, s * v.x + c * v.y, v.z⟩

/-- Helper rotation about the x axis by the angle with cosine c and sine s. -/
def rotX (c s : ℝ) (v : Vec3) : Vec3 :=
  ⟨v.x, c * v.y - s * v.z, s * v.y + c * v.z⟩

lemma perifocal_decomp (x y z : ℝ) (el : OrbitalElements) :
    perifocalToThree x y z el =
      physToRender (rotZ (Real.cos el.raan) (Real.sin el.raan)
        (rotX (Real.cos el.i) (Real.sin el.i)
          (rotZ (Real.cos el.omega) (Real.sin el.omega) ⟨x, y, z⟩))) := by
  ext <;> simp [perifocalToThree, physToRender, rotZ, rotX] <;> ring

lemma dot_rotZ (c s : ℝ) (h : c ^ 2 + s ^ 2 = 1) (u v : Vec3) :
    Vec3.dot (rotZ c s u) (rotZ c s v) = Vec3.dot u v := by
  simp only [Vec3.dot, rotZ]
  linear_combination (u.x * v.x + u.y * v.y) * h

lemma dot_rotX (c s : ℝ) (h : c ^ 2 + s ^ 2 = 1) (u v : Vec3) :
    Vec3.dot (rotX c s u) (rotX c s v) = Vec3.dot u v := by
  simp only [Vec3.dot, rotX]
  linear_combination (u.y * v.y + u.z * v.z) * h

lemma dot_physToRender (u v : Vec3) :
    Vec3.dot (physToRender u) (physToRender v) = Vec3.dot u v := by
  simp only [Vec3.dot, physToRender]
  ring

lemma dot_perifocal (x y z a b c : ℝ) (el : OrbitalElements) :
    Vec3.dot (perifocalToThree x y z el) (perifocalToThree a b c el) =
      x * a + y * b + z * c := by
  rw [perifocal_decomp, perifocal_decomp, dot_physToRender,
    dot_rotZ _ _ (Real.cos_sq_add_sin_sq el.raan),
    dot_rotX _ _ (Real.cos_sq_add_sin_sq el.i),
    dot_rotZ _ _ (Real.cos_sq_add_sin_sq el.omega)]
  simp [Vec3.dot]

lemma length_eq_sqrt_dot (v : Vec3) : v.length = Real.sqrt (Vec3.dot v v) := by
  rw [Vec3.length, Vec3.dot]
  congr 1
  ring

lemma length_perifocal (x y z : ℝ) (el : OrbitalElements) :
    (perifocalToThree x y z el).length = Real.sqrt (x ^ 2 + y ^ 2 + z ^ 2) := by
  rw [length_eq_sqrt_dot, dot_perifocal]
  congr 1
  ring

lemma perifocal_smul (k x y z : ℝ) (el : OrbitalElements) :
    perifocalToThree (k * x) (k * y) (k * z) el =
      Vec3.smul k (perifocalToThree x y z el) := by
  ext <;> simp [perifocalToThree, Vec3.smul] <;> ring

lemma conic_denom_pos (el : OrbitalElements) (nu : ℝ)
    (he0 : 0 ≤ el.e) (he1 : el.e < 1) : 0 < 1 + el.e * Real.cos nu := by
  nlinarith [Real.neg_one_le_cos nu]

lemma conic_r_pos (el : OrbitalElements) (nu : ℝ)
    (ha : 0 < el.a) (he0 : 0 ≤ el.e) (he1 : el.e < 1) :
    0 < el.a * (1 - el.e * el.e) / (1 + el.e * Real.cos nu) := by
  apply div_pos
  · have h2 : el.e * el.e < 1 := by nlinarith
    exact mul_pos ha (by linarith)
  · exact conic_denom_pos el nu he0 he1

lemma length_calcPos (el : OrbitalElements) (nu : ℝ)
    (ha : 0 < el.a) (he0 : 0 ≤ el.e) (he1 : el.e < 1) :
    (calculatePosition el (some nu)).length =
      el.a * (1 - el.e * el.e) / (1 + el.e * Real.cos nu) := by
  have hr := conic_r_pos el nu ha he0 he1
  unfold calculatePosition
  simp only [Option.getD_some]
  rw [length_perifocal]
  set r := el.a * (1 - el.e * el.e) / (1 + el.e * Real.cos nu) with hrdef
  have h1 : (r * Real.cos nu) ^ 2 + (r * Real.sin nu) ^ 2 + (0 : ℝ) ^ 2 = r ^ 2 := by
    linear_combination r ^ 2 * Real.sin_sq_add_cos_sq nu
  rw [h1, Real.sqrt_sq hr.le]

lemma normalize_of_length_pos (v : Vec3) (h : 0 < v.length) :
    v.normalize = Vec3.smul (1 / v.length) v := by
  unfold Vec3.normalize
  rw [if_neg (ne_of_gt h)]
  ext <;> simp [Vec3.smul] <;> ring

lemma normalize_of_length_one (v : Vec3) (h : v.length = 1) : v.normalize = v := by
  unfold Vec3.normalize
  rw [h]
  simp

lemma dot_normalize_right (u v : Vec3) (h : Vec3.dot u v = 0) :
    Vec3.dot u v.normalize = 0 := by
  unfold Vec3.dot at h
  unfold Vec3.normalize Vec3.dot
  have hd : u.x * (v.x / if v.length = 0 then 1 else v.length)
      + u.y * (v.y / if v.length = 0 then 1 else v.length)
      + u.z * (v.z / if v.length = 0 then 1 else v.length)
      = (u.x * v.x + u.y * v.y + u.z * v.z) / if v.length = 0 then 1 else v.length := by
    ring
  rw [hd, h, zero_div]

lemma length_smul (k : ℝ) (v : Vec3) (hk : 0 ≤ k) :
    (Vec3.smul k v).length = k * v.length := by
  unfold Vec3.length Vec3.smul
  rw [show (k * v.x) ^ 2 + (k * v.y) ^ 2 + (k * v.z) ^ 2
      = k ^ 2 * (v.x ^ 2 + v.y ^ 2 + v.z ^ 2) by ring]
  rw [Real.sqrt_mul (sq_nonneg k), Real.sqrt_sq hk]

lemma smul_smul_vec (k l : ℝ) (v : Vec3) :
    Vec3.smul k (Vec3.smul l v) = Vec3.smul (k * l) v := by
  ext <;> simp [Vec3.smul] <;> ring

lemma smul_one_vec (v : Vec3) : Vec3.smul 1 v = v := by
  ext <;> simp [Vec3.smul]

lemma smul_neg_vec (k : ℝ) (v : Vec3) :
    Vec3.smul k (Vec3.neg v) = Vec3.smul (-k) v := by
  ext <;> simp [Vec3.smul, Vec3.neg]

lemma calcPos_zero_eq_smul (el : OrbitalElements) :
    calculatePosition el (some 0) =
      Vec3.smul (el.a * (1 - el.e * el.e) / (1 + el.e))
        (perifocalToThree 1 0 0 el) := by
  have h := perifocal_smul (el.a * (1 - el.e * el.e) / (1 + el.e)) 1 0 0 el
  simp only [mul_one, mul_zero] at h
  rw [← h]
  unfold calculatePosition
  simp

lemma getPerigeeVector_eq (el : OrbitalElements)
    (ha : 0 < el.a) (he0 : 0 ≤ el.e) (he1 : el.e < 1) :
    getPerigeeVector el = perifocalToThree 1 0 0 el := by
  have hr : 0 < el.a * (1 - el.e * el.e) / (1 + el.e) := by
    apply div_pos
    · have h2 : el.e * el.e < 1 := by nlinarith
      exact mul_pos ha (by linarith)
    · linarith
  have hlen : (calculatePosition el (some 0)).length =
      el.a * (1 - el.e * el.e) / (1 + el.e) := by
    rw [length_calcPos el 0 ha he0 he1, Real.cos_zero, mul_one]
  unfold getPerigeeVector
  rw [normalize_of_length_pos _ (by rw [hlen]; exact hr), hlen,
    calcPos_zero_eq_smul, smul_smul_vec, one_div,
    inv_mul_cancel₀ (ne_of_gt hr), smul_one_vec]

lemma calc_omega_shift (el : OrbitalElements) (nu : ℝ) (h0 : el.e = 0) :
    calculatePosition el (some nu) =
      calculatePosition { el with omega := 0 } (some (nu + el.omega)) := by
  unfold calculatePosition perifocalToThree
  ext <;> simp [h0, Real.cos_add, Real.sin_add] <;> ring

/-- C1: for every input point and every elements record, perifocalToThree is
the classical 3-1-3 Euler rotation matrix (rows exactly as in the claim)
applied to the input, followed by the fixed physics-to-render relabeling
sending physics (X, Y, Z) to render (X, Z, -Y); and getNodeVector, the one
core output not built through perifocalToThree, applies that same relabeling
to its physics-frame node vector (cos RAAN, sin RAAN, 0) before
normalizing. -/
theorem claim_C1 (x y z : ℝ) (el : OrbitalElements) :
    perifocalToThree x y z el = physToRender (euler313Apply el ⟨x, y, z⟩) ∧
    getNodeVector el =
      Vec3.normalize (physToRender ⟨Real.cos el.raan, Real.sin el.raan, 0⟩) := by
  constructor
  · ext <;> simp [perifocalToThree, physToRender, euler313Apply]
  · rfl

/-- C2: for every elements record with a positive and 0 ≤ e < 1 and any
optional anomaly, calculatePosition is exactly the spec-side position
function: true anomaly taken from the argument when supplied and from the
record otherwise, conic radius r = a (1 - e^2) / (1 + e cos nu), perifocal
point (r cos nu, r sin nu, 0), then the frame transform. -/
theorem claim_C2 (el : OrbitalElements) (anomaly : Option ℝ)
    (ha : 0 < el.a) (he0 : 0 ≤ el.e) (he1 : el.e < 1) :
    calculatePosition el anomaly = positionSpec el anomaly := by
  unfold calculatePosition positionSpec
  rw [pow_two]

/-- Witness for C2: the default elements satisfy the hypotheses and the
theorem applies to them. -/
theorem claim_C2_witness :
    0 < INITIAL_ELEMENTS.a ∧ 0 ≤ INITIAL_ELEMENTS.e ∧ INITIAL_ELEMENTS.e < 1 ∧
    calculatePosition INITIAL_ELEMENTS (some 0) =
      positionSpec INITIAL_ELEMENTS (some 0) := by
  refine ⟨?_, ?_, ?_, claim_C2 INITIAL_ELEMENTS (some 0) ?_ ?_ ?_⟩ <;>
    norm_num [INITIAL_ELEMENTS]

/-- C6: the singularity flags are pure predicates of the current elements
with exactly the thresholds the spec states: isCircular holds iff e < 0.01
and isEquatorial holds iff the inclination is below 0.01 degrees converted
to radians. -/
theorem claim_C6 (el : OrbitalElements) :
    (isCircular el ↔ el.e < 0.01) ∧ (isEquatorial el ↔ el.i < degToRad 0.01) :=
  ⟨Iff.rfl, Iff.rfl⟩

/-- C7: for every elements record, getOrbitNormal is a unit vector
orthogonal both to getPerigeeVector and to the in-plane velocity direction
at perigee, the transform of the perifocal unit-y vector. -/
theorem claim_C7 (el : OrbitalElements) :
    (getOrbitNormal el).length = 1 ∧
    Vec3.dot (getOrbitNormal el) (getPerigeeVector el) = 0 ∧
    Vec3.dot (getOrbitNormal el) (perifocalToThree 0 1 0 el) = 0 := by
  have hlen : (perifocalToThree 0 0 1 el).length = 1 := by
    rw [length_perifocal]
    norm_num
  have hnorm : getOrbitNormal el = perifocalToThree 0 0 1 el :=
    normalize_of_length_one _ hlen
  refine ⟨?_, ?_, ?_⟩
  · rw [hnorm]
    exact hlen
  · rw [hnorm]
    unfold getPerigeeVector
    apply dot_normalize_right
    unfold calculatePosition
    simp only [Option.getD_some]
    rw [dot_perifocal]
    ring
  · rw [hnorm, dot_perifocal]
    ring

/-- C9: getNodeVector is always a well-defined unit vector, it depends on
the elements only through the RAAN, and at exactly equatorial inclination
the isEquatorial flag holds. -/
theorem claim_C9 :
    (∀ el : OrbitalElements, (getNodeVector el).length = 1) ∧
    (∀ e1 e2 : OrbitalElements, e1.raan = e2.raan →
      getNodeVector e1 = getNodeVector e2) ∧
    (∀ el : OrbitalElements, el.i = 0 → isEquatorial el) := by
  have key : ∀ t : ℝ, (⟨Real.cos t, 0, -Real.sin t⟩ : Vec3).length = 1 := by
    intro t
    unfold Vec3.length
    rw [show Real.cos t ^ 2 + (0 : ℝ) ^ 2 + (-Real.sin t) ^ 2 = 1 by
      linear_combination Real.sin_sq_add_cos_sq t]
    exact Real.sqrt_one
  refine ⟨?_, ?_, ?_⟩
  · intro el
    unfold getNodeVector
    rw [normalize_of_length_one _ (key el.raan)]
    exact key el.raan
  · intro e1 e2 h
    unfold getNodeVector
    rw [h]
  · intro el h
    unfold isEquatorial
    rw [h]
    positivity

/-- Witness for C9: the hypotheses of the dependence and equatorial parts
are discharged at concrete elements. -/
theorem claim_C9_witness :
    getNodeVector INITIAL_ELEMENTS = getNodeVector INITIAL_ELEMENTS ∧
    isEquatorial circularScenario :=
  ⟨claim_C9.2.1 INITIAL_ELEMENTS INITIAL_ELEMENTS rfl,
   claim_C9.2.2 circularScenario (by norm_num [circularScenario])⟩

/-- C5: for every elements record and every segment count N at least 1,
generateOrbitPath returns exactly N + 1 points, the j-th point is
calculatePosition at true anomaly 2 pi j / N, and the first and last points
coincide, closing the loop.  (The function is a plain pure mapping of its
two arguments, so restartability holds by construction.) -/
theorem claim_C5 (el : OrbitalElements) (N : ℕ) (hN : 1 ≤ N) :
    (generateOrbitPath el N).length = N + 1 ∧
    (∀ j : ℕ, j ≤ N →
      (generateOrbitPath el N)[j]? =
        some (calculatePosition el (some (2 * Real.pi * j / N)))) ∧
    (generateOrbitPath el N)[0]? = (generateOrbitPath el N)[N]? := by
  have hget : ∀ j : ℕ, j ≤ N → (generateOrbitPath el N)[j]? =
      some (calculatePosition el (some (((j : ℝ) / (N : ℝ)) * 2 * Real.pi))) := by
    intro j hj
    unfold generateOrbitPath
    rw [List.getElem?_map, List.getElem?_range (by omega)]
    rfl
  refine ⟨?_, ?_, ?_⟩
  · simp [generateOrbitPath]
  · intro j hj
    rw [hget j hj]
    congr 3
    ring
  · rw [hget 0 (by omega), hget N le_rfl]
    have hN0 : (N : ℝ) ≠ 0 := Nat.cast_ne_zero.mpr (by omega)
    rw [show ((0 : ℕ) : ℝ) / (N : ℝ) * 2 * Real.pi = 0 by simp]
    rw [show ((N : ℕ) : ℝ) / (N : ℝ) * 2 * Real.pi = 2 * Real.pi by
      rw [div_self hN0]; ring]
    unfold calculatePosition
    simp [Real.cos_two_pi, Real.sin_two_pi]

/-- Witness for C5: the theorem applies at the default elements with four
segments, giving a five-point closed path. -/
theorem claim_C5_witness :
    1 ≤ 4 ∧ (generateOrbitPath INITIAL_ELEMENTS 4).length = 4 + 1 :=
  ⟨by norm_num, (claim_C5 INITIAL_ELEMENTS 4 (by norm_num)).1⟩

/-- C10: the frame transform is rigid: the Euclidean norm of its output is
the Euclidean norm of its input; consequently, for valid elements, the
distance of calculatePosition from the origin is the conic radius, and the
vectors that getPerigeeVector and getOrbitNormal normalize are nonzero. -/
theorem claim_C10 :
    (∀ (x y z : ℝ) (el : OrbitalElements),
      (perifocalToThree x y z el).length = Real.sqrt (x ^ 2 + y ^ 2 + z ^ 2)) ∧
    (∀ (el : OrbitalElements) (nu : ℝ), 0 < el.a → 0 ≤ el.e → el.e < 1 →
      (calculatePosition el (some nu)).length =
        el.a * (1 - el.e * el.e) / (1 + el.e * Real.cos nu) ∧
      calculatePosition el (some 0) ≠ Vec3.zero ∧
      perifocalToThree 0 0 1 el ≠ Vec3.zero) := by
  refine ⟨length_perifocal, ?_⟩
  intro el nu ha he0 he1
  refine ⟨length_calcPos el nu ha he0 he1, ?_, ?_⟩
  · intro hcontra
    have h0 := length_calcPos el 0 ha he0 he1
    rw [hcontra] at h0
    have hz : Vec3.zero.length = 0 := by
      simp [Vec3.zero, Vec3.length]
    rw [hz] at h0
    have hpos := conic_r_pos el 0 ha he0 he1
    linarith
  · intro hcontra
    have h1 : (perifocalToThree 0 0 1 el).length = 1 := by
      rw [length_perifocal]
      norm_num
    rw [hcontra] at h1
    simp [Vec3.zero, Vec3.length] at h1

/-- Witness for C10: the rigid-map consequence applies at the default
elements with true anomaly zero. -/
theorem claim_C10_witness :
    0 < INITIAL_ELEMENTS.a ∧
    (calculatePosition INITIAL_ELEMENTS (some 0)).length =
      INITIAL_ELEMENTS.a * (1 - INITIAL_ELEMENTS.e * INITIAL_ELEMENTS.e)
        / (1 + INITIAL_ELEMENTS.e * Real.cos 0) := by
  refine ⟨?_, (claim_C10.2 INITIAL_ELEMENTS 0 ?_ ?_ ?_).1⟩ <;>
    norm_num [INITIAL_ELEMENTS]

/-- C4: for valid elements, the position at true anomaly 0 is a (1 - e)
times the perigee unit direction, and for positive eccentricity the
position at true anomaly pi is a (1 + e) times the negated perigee
direction; at the default elements the perigee and apogee distances are
4.8 and 11.2 units. -/
theorem claim_C4 :
    (∀ el : OrbitalElements, 0 < el.a → 0 ≤ el.e → el.e < 1 →
      calculatePosition el (some 0) =
        Vec3.smul (el.a * (1 - el.e)) (getPerigeeVector el) ∧
      (0 < el.e → calculatePosition el (some Real.pi) =
        Vec3.smul (el.a * (1 + el.e)) (Vec3.neg (getPerigeeVector el)))) ∧
    (calculatePosition INITIAL_ELEMENTS (some 0)).length = 4.8 ∧
    (calculatePosition INITIAL_ELEMENTS (some Real.pi)).length = 11.2 := by
  have main : ∀ el : OrbitalElements, 0 < el.a → 0 ≤ el.e → el.e < 1 →
      calculatePosition el (some 0) =
        Vec3.smul (el.a * (1 - el.e)) (getPerigeeVector el) ∧
      (0 < el.e → calculatePosition el (some Real.pi) =
        Vec3.smul (el.a * (1 + el.e)) (Vec3.neg (getPerigeeVector el))) := by
    intro el ha he0 he1
    have hden : (1 : ℝ) + el.e ≠ 0 := by linarith
    have hP := getPerigeeVector_eq el ha he0 he1
    constructor
    · rw [calcPos_zero_eq_smul, hP]
      congr 1
      field_simp
      ring
    · intro _
      have hpi : calculatePosition el (some Real.pi) =
          Vec3.smul (-(el.a * (1 - el.e * el.e) / (1 - el.e)))
            (perifocalToThree 1 0 0 el) := by
        have h := perifocal_smul (-(el.a * (1 - el.e * el.e) / (1 - el.e)))
          1 0 0 el
        simp only [mul_one, mul_zero] at h
        rw [← h]
        unfold calculatePosition
        simp [Real.cos_pi, Real.sin_pi]
        rw [show (1 : ℝ) + -el.e = 1 - el.e by ring]
      rw [hpi, hP, smul_neg_vec]
      congr 1
      have hden1 : (1 : ℝ) - el.e ≠ 0 := by linarith
      field_simp
      ring
  refine ⟨main, ?_, ?_⟩
  · rw [length_calcPos INITIAL_ELEMENTS 0 (by norm_num [INITIAL_ELEMENTS])
      (by norm_num [INITIAL_ELEMENTS]) (by norm_num [INITIAL_ELEMENTS])]
    rw [Real.cos_zero]
    norm_num [INITIAL_ELEMENTS]
  · rw [length_calcPos INITIAL_ELEMENTS Real.pi (by norm_num [INITIAL_ELEMENTS])
      (by norm_num [INITIAL_ELEMENTS]) (by norm_num [INITIAL_ELEMENTS])]
    rw [Real.cos_pi]
    norm_num [INITIAL_ELEMENTS]

/-- Witness for C4: the universally quantified part applies to the default
elements, whose hypotheses hold. -/
theorem claim_C4_witness :
    0 < INITIAL_ELEMENTS.a ∧ 0 < INITIAL_ELEMENTS.e ∧
    calculatePosition INITIAL_ELEMENTS (some Real.pi) =
      Vec3.smul (INITIAL_ELEMENTS.a * (1 + INITIAL_ELEMENTS.e))
        (Vec3.neg (getPerigeeVector INITIAL_ELEMENTS)) := by
  refine ⟨?_, ?_, (claim_C4.1 INITIAL_ELEMENTS ?_ ?_ ?_).2 ?_⟩ <;>
    norm_num [INITIAL_ELEMENTS]

/-- C8: with exactly zero eccentricity the circular flag holds, every
position lies at distance exactly a from the origin, and the traced point
set does not depend on the argument of perigee: the position with argument
of perigee omega at anomaly nu equals the position with argument of perigee
0 at anomaly nu + omega.  The circular equatorial scenario a = 10, e = 0,
i = 0, omega = 0, raan = 0, nu = pi / 2 satisfies both flags and sits at
distance exactly 10. -/
theorem claim_C8 :
    (∀ (el : OrbitalElements) (nu : ℝ), el.e = 0 → 0 < el.a →
      isCircular el ∧
      (calculatePosition el (some nu)).length = el.a ∧
      calculatePosition el (some nu) =
        calculatePosition { el with omega := 0 } (some (nu + el.omega))) ∧
    isCircular circularScenario ∧ isEquatorial circularScenario ∧
    (calculatePosition circularScenario none).length = 10 := by
  have main : ∀ (el : OrbitalElements) (nu : ℝ), el.e = 0 → 0 < el.a →
      isCircular el ∧
      (calculatePosition el (some nu)).length = el.a ∧
      calculatePosition el (some nu) =
        calculatePosition { el with omega := 0 } (some (nu + el.omega)) := by
    intro el nu h0 ha
    refine ⟨?_, ?_, calc_omega_shift el nu h0⟩
    · unfold isCircular
      rw [h0]
      norm_num
    · have h := length_calcPos el nu ha (by rw [h0]) (by rw [h0]; norm_num)
      rw [h0] at h
      simpa using h
  refine ⟨main, ?_, ?_, ?_⟩
  · unfold isCircular circularScenario
    norm_num
  · unfold isEquatorial circularScenario
    positivity
  · have h := (main circularScenario circularScenario.nu rfl
      (by norm_num [circularScenario])).2.1
    exact h

/-- Witness for C8: the universally quantified part applies to the circular
equatorial scenario, whose hypotheses hold. -/
theorem claim_C8_witness :
    circularScenario.e = 0 ∧ 0 < circularScenario.a ∧ isCircular circularScenario := by
  refine ⟨?_, ?_, (claim_C8.1 circularScenario 0 ?_ ?_).1⟩ <;>
    norm_num [circularScenario]

/-- C3 counterexample: the field-update boundary neither rejects nor clamps
a domain-violating eccentricity: updating the eccentricity to 1 stores 1
verbatim, the conic denominator at true anomaly pi is then exactly zero,
and calculatePosition is still evaluated on the domain-violating record
(in this real-number model the division yields the origin; in JavaScript
the same evaluation yields NaN components). -/
theorem claim_C3_counterexample :
    (handleUpdateElement INITIAL_ELEMENTS ParameterKey.E 1).e = 1 ∧
    1 + (handleUpdateElement INITIAL_ELEMENTS ParameterKey.E 1).e
      * Real.cos Real.pi = 0 ∧
    calculatePosition (handleUpdateElement INITIAL_ELEMENTS ParameterKey.E 1)
      (some Real.pi) = Vec3.zero := by
  refine ⟨rfl, ?_, ?_⟩
  · show (1 : ℝ) + 1 * Real.cos Real.pi = 0
    rw [Real.cos_pi]
    ring
  · show calculatePosition { INITIAL_ELEMENTS with e := (1 : ℝ) }
      (some Real.pi) = Vec3.zero
    unfold calculatePosition perifocalToThree
    simp [Vec3.zero]

/-- C3 (amended): the code does not fail fast at the element-update
boundary: handleUpdateElement overwrites the addressed field with the given
value verbatim, with no rejection and no clamping, and calculatePosition
has no guard against e reaching 1: at e = 1 the conic denominator at true
anomaly pi is exactly zero and the position is still evaluated, collapsing
to the origin in this real-number model.  Domain safety rests only on the
slider bounds of the UI layer (eccentricity slider range 0 to 0.85). -/
theorem claim_C3_amended :
    (∀ (prev : OrbitalElements) (v : ℝ),
      handleUpdateElement prev ParameterKey.E v = { prev with e := v }) ∧
    (∀ el : OrbitalElements, el.e = 1 →
      1 + el.e * Real.cos Real.pi = 0 ∧
      calculatePosition el (some Real.pi) = Vec3.zero) := by
  refine ⟨fun prev v => rfl, ?_⟩
  intro el h
  constructor
  · rw [h, Real.cos_pi]
    ring
  · unfold calculatePosition perifocalToThree
    simp [h, Vec3.zero]

/-- Witness for C3 (amended): the amended theorem applies at the default
elements updated to eccentricity 1. -/
theorem claim_C3_witness :
    (handleUpdateElement INITIAL_ELEMENTS ParameterKey.E 1).e = 1 ∧
    calculatePosition (handleUpdateElement INITIAL_ELEMENTS ParameterKey.E 1)
      (some Real.pi) = Vec3.zero :=
  ⟨rfl, (claim_C3_amended.2 (handleUpdateElement INITIAL_ELEMENTS
    ParameterKey.E 1) rfl).2⟩

end
